/-
Verification of the replication / host-election engine of jupyterlab-rtc-yjs
(`src/RTCNotebook.tsx`).

The embedding models the state of one `RTCNotebook` replica:

* `cells`        : the replicated block map `doc.getMap('cells')`, an
                   association list from block-id to block record
                   (a `Y.Map<Y.Map<any>>` has unique string keys; the
                   association-list operations below read and replace the
                   first occurrence, which coincides with map semantics);
* `nbCells`      : the local notebook model's ordered cell list
                   (`notebook.model.cells` / `notebook.widgets`);
* `bindings`     : the `Map<string, CodemirrorBinding>` of live bindings;
* `notebookHost` : the replicated host pointer `doc.getText('host')`,
                   modelled as the string it currently spells;
* `hosting`, `username`, `clientID`, `awareness` : the election state and
                   the presence set (`ws.awareness.states`, client-id to
                   user name);
* subscription flags and `wsDestroyed` for the lifecycle claims.

JavaScript code that dereferences `undefined` throws a `TypeError`; every
handler is therefore embedded as a function into `Option`, where `none`
models a thrown exception.  `cell.setPrompt` only repaints the execution
prompt in the DOM and is not part of the modelled state.
-/
import Mathlib

set_option autoImplicit false

namespace RTCYjs

/-- The three notebook cell types produced by JupyterLab cell models. -/
inductive CellType where
  | code
  | markdown
  | raw
deriving DecidableEq, Repr

/-- One value of the replicated block map `doc.getMap('cells')`:
the per-block `Y.Map` holding `type`, `position`, `xCount`, `output`
and `tag`.  `xCount` and `tag` may be absent (JS `undefined`). -/
structure BlockRecord where
  type : CellType
  position : Nat
  xCount : Option Nat
  output : List String
  tag : Option Nat
deriving DecidableEq, Repr

/-- One cell of the local notebook model: its metadata back-reference
`rtc-id`, the locally cached `xCount` metadata, its cell type and its
output area contents. -/
structure LocalCell where
  rtcId : Option String
  xCountMeta : Option Nat
  ctype : CellType
  outputs : List String
deriving DecidableEq, Repr

/-- A `CodemirrorBinding`; `destroyed` records whether `destroy()` has
ever been invoked on the object. -/
structure Binding where
  destroyed : Bool
deriving DecidableEq, Repr

/-- Lookup in an association list modelling a JS `Map` / `Y.Map`
(first occurrence wins; keys are unique in an actual map). -/
def alookup {κ α : Type} [DecidableEq κ] : List (κ × α) → κ → Option α
  | [], _ => none
  | (k, v) :: rest, key => if k = key then some v else alookup rest key

/-- `map.set(key, v)`: replace the first entry with that key, or append. -/
def aset {κ α : Type} [DecidableEq κ] : List (κ × α) → κ → α → List (κ × α)
  | [], key, v => [(key, v)]
  | (k, w) :: rest, key, v =>
      if k = key then (k, v) :: rest else (k, w) :: aset rest key v

/-- `map.delete(key)`: drop the first entry with that key. -/
def adelete {κ α : Type} [DecidableEq κ] : List (κ × α) → κ → List (κ × α)
  | [], _ => []
  | (k, w) :: rest, key =>
      if k = key then rest else (k, w) :: adelete rest key

/-- The replicated block map. -/
abbrev CellsMap := List (String × BlockRecord)

/-- The state of one replica. -/
structure RTCState where
  cells : CellsMap
  nbCells : List LocalCell
  bindings : List (String × Binding)
  hosting : Bool
  notebookHost : String
  username : String
  clientID : Nat
  awareness : List (Nat × String)
  localListenerConnected : Bool
  remoteListenerConnected : Bool
  execListenerConnected : Bool
  closeHandlerInstalled : Bool
  saveHandlerConnected : Bool
  wsDestroyed : Bool
deriving DecidableEq, Repr

/-- Effects on the external execution backend produced by one handler run:
`executed` is a `CodeCell.execute` invocation, `kernelChanged` is the
`sessionContext.changeKernel` call performed by `becomeHost`. -/
structure Effects where
  executed : Bool
  kernelChanged : Bool
deriving DecidableEq, Repr

def noEffects : Effects := ⟨false, false⟩

/-- `IObservableList.insert(index, x)` (index clamped into `[0, length]`,
so an oversized index appends). -/
def insertAt {α : Type} (l : List α) (i : Nat) (a : α) : List α :=
  l.take i ++ a :: l.drop i

/-- `IObservableList.move(src, dst)`: remove the element at `src` and
re-insert it at `dst`. -/
def listMove {α : Type} (l : List α) (src dst : Nat) : List α :=
  match l.get? src with
  | none => l
  | some x => insertAt (l.eraseIdx src) dst x

/-! ## adjustIndexes -/

/-- `this.notebook.model.cells.get(index).metadata.get('rtc-id')`:
the block-id carried by the local cell at `index`, when both exist. -/
def cellIdAt (nb : List LocalCell) (index : Nat) : Option String :=
  (nb.get? index).bind (·.rtcId)

/-- The body of the `adjustIndexes` loop for one `index`:
`this.cells.get(this.notebook.model.cells.get(index).metadata.get('rtc-id'))
  .set('position', index)`.
`none` models the `TypeError` thrown when the local cell, its `rtc-id`
or its block record is missing. -/
def adjustStep (nb : List LocalCell) (acc : CellsMap) (index : Nat) :
    Option CellsMap :=
  match cellIdAt nb index with
  | none => none
  | some id =>
    match alookup acc id with
    | none => none
    | some r => some (aset acc id { r with position := index })

/-- The inclusive index span `start..stop` visited by `adjustIndexes`,
where the two bounds may come in either order. -/
def spanIndexes (oldPos newPos : Nat) : List Nat :=
  let start := if oldPos ≤ newPos then oldPos else newPos
  let stop := if oldPos ≤ newPos then newPos else oldPos
  List.range' start (stop + 1 - start)

/-- `RTCNotebook.adjustIndexes(oldPos, newPos)`: for every local index in
the inclusive span between the bounds, overwrite the corresponding block
record's `position` with that index. -/
def adjustIndexes (nb : List LocalCell) (cm : CellsMap)
    (oldPos newPos : Nat) : Option CellsMap :=
  (spanIndexes oldPos newPos).foldlM (adjustStep nb) cm

/-! ## Local cell-list listener (`initLocalListener`) -/

/-- The `IObservableList.IChangedArgs` variants dispatched by the local
listener.  The listener runs after the change is already applied to the
local model, so `nbCells` in the state is the post-change list. -/
inductive ChangedArgs where
  | add (newIndex : Nat)
  | remove (oldIndex : Nat) (oldValue : LocalCell)
  | set (oldValue newValue : LocalCell)
  | move (oldIndex newIndex : Nat) (oldValue : LocalCell)
deriving DecidableEq, Repr

/-- `RTCNotebook.initLocalListener`'s slot body.  `freshId` stands for the
`uuid()` minted in the `add` branch. -/
def localListener (s : RTCState) (freshId : String) (changed : ChangedArgs) :
    Option RTCState :=
  match changed with
  | .add newIndex =>
    match s.nbCells.get? newIndex with
    | none => none
    | some cellModel =>
      if cellModel.rtcId.isSome then
        -- cell was added by remote operation so don't insert it!
        some s
      else
        let cellModel' := { cellModel with
                            rtcId := some freshId, xCountMeta := some 0 }
        let nb' := s.nbCells.set newIndex cellModel'
        let record : BlockRecord :=
          { type := .code, position := newIndex, xCount := some 0,
            output := [], tag := none }
        let s1 := { s with
                    nbCells := nb',
                    bindings := aset s.bindings freshId ⟨false⟩,
                    cells := aset s.cells freshId record }
        if newIndex < nb'.length - 1 then
          match adjustIndexes nb' s1.cells (newIndex + 1) (nb'.length - 1) with
          | none => none
          | some cm => some { s1 with cells := cm }
        else some s1
  | .remove oldIndex oldValue =>
    match oldValue.rtcId with
    | none => some s          -- bindings.get(undefined) is undefined: guard trips
    | some deleteCellID =>
      match alookup s.bindings deleteCellID with
      | none => some s        -- cell is already deleted in remote array
      | some _ =>
        let s1 := { s with
                    bindings := adelete s.bindings deleteCellID,
                    cells := adelete s.cells deleteCellID }
        if oldIndex < s.nbCells.length then
          match adjustIndexes s1.nbCells s1.cells oldIndex
              (s1.nbCells.length - 1) with
          | none => none
          | some cm => some { s1 with cells := cm }
        else some s1
  | .set oldValue newValue =>
    if newValue.ctype ≠ oldValue.ctype then
      match oldValue.rtcId with
      | none => none
      | some rid =>
        match alookup s.cells rid with
        | none => none
        | some r =>
          match s.nbCells.get? r.position with
          | none => none
          | some cell =>
            -- bindCell(cell); a missing widget id leaves the string-keyed
            -- binding table unchanged
            let s1 := match cell.rtcId with
              | some cid => { s with bindings := aset s.bindings cid ⟨false⟩ }
              | none => s
            -- check if remote is up to date; if not, propagate the change
            if r.type ≠ cell.ctype then
              some { s1 with
                     cells := aset s1.cells rid { r with type := cell.ctype } }
            else some s1
    else some s
  | .move oldIndex newIndex oldValue =>
    if oldIndex = newIndex then
      -- nothing happened
      some s
    else
      match oldValue.rtcId with
      | none => none
      | some id =>
        match alookup s.cells id with
        | none => none
        | some r =>
          if r.position = newIndex then
            -- remote map is already updated so we initiated this move
            some s
          else
            let cells1 := aset s.cells id { r with position := newIndex }
            match adjustIndexes s.nbCells cells1 oldIndex newIndex with
            | none => none
            | some cm => some { s with cells := cm }

/-- The echo conditions of the local listener: an Add replaying a remote
add (the cell model already carries an `rtc-id`), a Remove replaying a
remote delete (no binding left for the id), or a Move replaying a remote
move (indices equal, or the block record already stores the new index). -/
def isLocalEcho (s : RTCState) (changed : ChangedArgs) : Prop :=
  match changed with
  | .add newIndex =>
      ∃ c, s.nbCells.get? newIndex = some c ∧ c.rtcId.isSome
  | .remove _ oldValue =>
      ∀ id, oldValue.rtcId = some id → alookup s.bindings id = none
  | .set _ _ => False
  | .move oldIndex newIndex oldValue =>
      oldIndex = newIndex ∨
        ∃ id r, oldValue.rtcId = some id ∧ alookup s.cells id = some r ∧
          r.position = newIndex

/-! ## Remote change dispatcher (`initRemoteListener`) -/

/-- The keys of a block record that the dispatcher switches on. -/
inductive FieldKey where
  | position
  | type
  | xCount
  | output
  | tag
deriving DecidableEq, Repr

/-- One entry of `mapEvent.changes.keys` for a property-change event.
`oldValue` is the numeric previous value where one exists (`none` models
JS `undefined` or a non-numeric previous value). -/
structure KeyChange where
  key : FieldKey
  oldValue : Option Nat
deriving DecidableEq, Repr

/-- Actions of a top-level (`path.length = 0`) map event. -/
inductive MapAction where
  | add
  | update
  | delete
deriving DecidableEq, Repr

/-- One `Y.YMapEvent` delivered to the remote listener of a transaction
with a truthy origin (the falsy-origin case returns without dispatching). -/
inductive RemoteEvent where
  | property (id : String) (keys : List KeyChange)
  | topLevel (changes : List (String × MapAction))
deriving DecidableEq, Repr

/-- `RTCNotebook.switchType`: replay a remote cell-type change.
`createMarkdownCell({cell: oldCell.model.toJSON()})` (and the code/raw
variants) rebuild the cell with the same content under the new type. -/
def switchType (s : RTCState) (id : String) : Option RTCState :=
  match alookup s.cells id with
  | none => none
  | some r =>
    match s.nbCells.get? r.position with
    | none => none
    | some oldCell =>
      if oldCell.ctype = r.type then some s
      else
        some { s with
               nbCells := s.nbCells.set r.position
                 { oldCell with ctype := r.type } }

/-- `RTCNotebook.handleExecution`: on the host, compare the replicated
`xCount` against the locally cached `xCount` metadata; a `true` result
is the `CodeCell.execute(cell, sessionContext)` call. -/
def handleExecution (s : RTCState) (id : String) : Option Bool :=
  match alookup s.cells id with
  | none => none
  | some r =>
    match s.nbCells.get? r.position with
    | none => none
    | some cell =>
      if cell.xCountMeta = r.xCount then some false
      else some true

/-- `RTCNotebook.handleOutputChange`: replace a code cell's output area
contents with the replicated `output` payload. -/
def handleOutputChange (s : RTCState) (id : String) : Option RTCState :=
  match alookup s.cells id with
  | none => none
  | some r =>
    match s.nbCells.get? r.position with
    | none => none
    | some cell =>
      if cell.ctype = .code then
        some { s with
               nbCells := s.nbCells.set r.position
                 { cell with outputs := r.output } }
      else some s

/-- `RTCNotebook.handleTag`: `cell.setPrompt(metadata.get('tag'))` repaints
the prompt only; the lookups may still fault. -/
def handleTag (s : RTCState) (id : String) : Option RTCState :=
  match alookup s.cells id with
  | none => none
  | some r =>
    match s.nbCells.get? r.position with
    | none => none
    | some _ => some s

/-- One iteration of `RTCNotebook.handleMoveUpdate`'s forEach over the
event's changed keys. -/
def handleMoveStep (s : RTCState) (id : String) (kc : KeyChange) :
    Option RTCState :=
  match kc.oldValue with
  | none => none
  | some oldPosition =>
    match alookup s.cells id with
    | none => none
    | some r =>
      match s.nbCells.get? r.position with
      | none => none
      | some cell =>
        if cell.rtcId = some id then
          -- this cell is already at its correct position
          some s
        else
          some { s with nbCells := listMove s.nbCells oldPosition r.position }

/-- `RTCNotebook.handleMoveUpdate`: forEach over all changed keys of the
event. -/
def handleMoveUpdate (s : RTCState) (id : String) (keys : List KeyChange) :
    Option RTCState :=
  keys.foldlM (fun acc kc => handleMoveStep acc id kc) s

/-- The `add` branch of the remote top-level dispatch: materialise a new
local cell of the recorded type at the recorded position and bind it. -/
def remoteAdd (s : RTCState) (id : String) : Option RTCState :=
  match alookup s.cells id with
  | none => none
  | some r =>
    let cellModel : LocalCell :=
      { rtcId := some id, xCountMeta := some 0, ctype := r.type,
        outputs := [] }
    let nb' := insertAt s.nbCells r.position cellModel
    match nb'.get? r.position with
    | none => none           -- bindCell on an undefined widget faults
    | some cell =>
      match cell.rtcId with
      | some cid =>
        some { s with nbCells := nb', bindings := aset s.bindings cid ⟨false⟩ }
      | none => some { s with nbCells := nb' }

/-- The `delete` branch of the remote top-level dispatch:
`this.bindings.get(id).destroy()` — with no binding for `id` this
dereferences `undefined` and throws (`none`); otherwise the binding is
dropped and the first local cell whose `rtc-id` matches is removed. -/
def remoteDelete (s : RTCState) (id : String) : Option RTCState :=
  match alookup s.bindings id with
  | none => none
  | some _ =>
    some { s with
           bindings := adelete s.bindings id,
           nbCells := removeFirstById s.nbCells id }
where
  removeFirstById : List LocalCell → String → List LocalCell
    | [], _ => []
    | c :: rest, i => if c.rtcId = some i then rest else c :: removeFirstById rest i

/-- The remote listener's dispatch of one map event (for a transaction
with a truthy origin).  For a property change it reads only
`changes.keys.keys().next().value` — the first changed key — and invokes
that key's handler; a top-level event is folded over its id/action
entries. -/
def remoteListenerEvent (s : RTCState) (ev : RemoteEvent) :
    Option (RTCState × Effects) :=
  match ev with
  | .property id keys =>
    match keys.head? with
    | none => some (s, noEffects)
    | some kc =>
      match kc.key with
      | .position =>
          (handleMoveUpdate s id keys).map (fun s' => (s', noEffects))
      | .type => (switchType s id).map (fun s' => (s', noEffects))
      | .xCount =>
          if s.hosting then
            (handleExecution s id).map (fun ex => (s, ⟨ex, false⟩))
          else some (s, noEffects)
      | .output =>
          if !s.hosting then
            (handleOutputChange s id).map (fun s' => (s', noEffects))
          else some (s, noEffects)
      | .tag => (handleTag s id).map (fun s' => (s', noEffects))
  | .topLevel changes =>
    changes.foldlM
      (fun (acc : RTCState × Effects) c =>
        match c.2 with
        | .add => (remoteAdd acc.1 c.1).map (fun s' => (s', acc.2))
        | .update => some acc
        | .delete => (remoteDelete acc.1 c.1).map (fun s' => (s', acc.2)))
      (s, noEffects)

/-! ## Execution coordinator -/

/-- `RTCNotebook.checkHostActive`: scan the presence set for a member
whose user name equals the current host pointer. -/
def checkHostActive (s : RTCState) : Bool :=
  s.awareness.foldl
    (fun isActive st => if st.2 = s.notebookHost then true else isActive)
    false

/-- The arguments of one `NotebookActions.executed` emission as seen by
the slot: whether the emitting notebook is this notebook, the executed
cell's `rtc-id` metadata and its type. -/
structure ExecArgs where
  sameNotebook : Bool
  cellId : Option String
  cellType : CellType
deriving DecidableEq, Repr

/-- `RTCNotebook.initLocalExecutionListener`'s slot body (installed on
replicas that are not hosting at construction).  On a code cell of this
notebook: if no present member matches the host pointer, promote self
(set `hosting`, rewrite the host pointer, `becomeHost()` changes the
kernel); then increment the block record's `xCount` (1 when it was
undefined).  The slot never calls `CodeCell.execute`. -/
def localExecutionListener (s : RTCState) (args : ExecArgs) :
    Option (RTCState × Effects) :=
  if args.sameNotebook then
    match args.cellType with
    | .code =>
      let promoted := !checkHostActive s
      let s1 := if promoted then
          { s with hosting := true, notebookHost := s.username }
        else s
      match args.cellId with
      | none => none           -- metadata.get('xCount') on undefined faults
      | some cid =>
        match alookup s1.cells cid with
        | none => none
        | some metadata =>
          let currentCount : Nat :=
            match metadata.xCount with
            | none => 1
            | some c => c + 1
          some ({ s1 with
                  cells := aset s1.cells cid
                    { metadata with xCount := some currentCount } },
                ⟨false, promoted⟩)
    | _ => some (s, noEffects)
  else some (s, noEffects)

/-! ## Host handoff and close -/

/-- JS `Array.prototype.indexOf` (first index, `-1` when absent). -/
def jsIndexOf : List Nat → Nat → Int
  | [], _ => -1
  | y :: rest, x =>
    if y = x then 0
    else if jsIndexOf rest x < 0 then -1 else jsIndexOf rest x + 1

/-- JS `Array.prototype.splice(i, 1)`: a negative index counts from the
end; an index at or past the length removes nothing. -/
def jsSpliceOne {α : Type} (l : List α) (i : Int) : List α :=
  if i < 0 then l.eraseIdx ((l.length : Int) + i).toNat else l.eraseIdx i.toNat

/-- `RTCNotebook.handleHostChange`: with more than one present client,
splice out the own client id and write the user name of the client at the
randomly drawn index `pick` (`Math.floor(Math.random() * length)`, a
uniformly distributed index below the spliced length) into the host
pointer; otherwise leave the pointer untouched. -/
def handleHostChange (s : RTCState) (pick : Nat) : Option RTCState :=
  let states := s.awareness.map Prod.fst
  if states.length > 1 then
    let others := jsSpliceOne states (jsIndexOf states s.clientID)
    match others.get? pick with
    | none => none
    | some randomHost =>
      match alookup s.awareness randomHost with
      | none => none
      | some hostName => some { s with notebookHost := hostName }
  else some s

/-- `RTCNotebook.disconnectListeners`: disconnect the local cell-list
slot, the remote map observer, the execution listener (when its slot
exists), the close message hook and the save handler. -/
def disconnectListeners (s : RTCState) : RTCState :=
  { s with
    localListenerConnected := false,
    remoteListenerConnected := false,
    execListenerConnected := false,
    closeHandlerInstalled := false,
    saveHandlerConnected := false }

/-- `RTCNotebook.close()`: the forEach body is `binding.destroy` — a bare
property reference, not a call — so every binding object is left exactly
as it was; then the map is cleared, the listeners are disconnected and
the websocket provider is destroyed.  The second component returns the
binding objects as external holders (the bound editors) still see them
after `close()`. -/
def close (s : RTCState) : RTCState × List Binding :=
  let survivors := s.bindings.map (·.2)
  let s1 := disconnectListeners { s with bindings := [] }
  ({ s1 with wsDestroyed := true }, survivors)

/-- The increment rule of the execution listener:
`currentCount === undefined ? 1 : currentCount + 1`. -/
def bumpCount (x : Option Nat) : Nat :=
  match x with
  | none => 1
  | some c => c + 1

/-! ## Concrete sample states (used by the witness theorems) -/

/-- A block record with empty output and no tag. -/
def sampleRecord (t : CellType) (p : Nat) (x : Option Nat) : BlockRecord :=
  { type := t, position := p, xCount := x, output := [], tag := none }

/-- Three local cells bound to blocks `a`, `b`, `c`. -/
def sampleNb : List LocalCell :=
  [ { rtcId := some "a", xCountMeta := some 0, ctype := .code, outputs := [] },
    { rtcId := some "b", xCountMeta := some 0, ctype := .code, outputs := [] },
    { rtcId := some "c", xCountMeta := some 0, ctype := .markdown,
      outputs := [] } ]

/-- A replicated block map matching `sampleNb`, where block `b`'s
replicated `xCount` is ahead of the local cache and block `c`'s is
still undefined. -/
def sampleCells : CellsMap :=
  [ ("a", sampleRecord .code 0 (some 0)),
    ("b", sampleRecord .code 1 (some 1)),
    ("c", sampleRecord .markdown 2 none) ]

/-- The same map with stale positions, before a reindex. -/
def staleCells : CellsMap :=
  [ ("a", sampleRecord .code 5 (some 0)),
    ("b", sampleRecord .code 7 (some 1)),
    ("c", sampleRecord .markdown 0 none) ]

/-- A connected non-host replica named `me` whose host pointer names the
present peer `hostuser`. -/
def sampleState : RTCState :=
  { cells := sampleCells,
    nbCells := sampleNb,
    bindings := [("a", ⟨false⟩), ("b", ⟨false⟩), ("c", ⟨false⟩)],
    hosting := false,
    notebookHost := "hostuser",
    username := "me",
    clientID := 3,
    awareness := [(3, "me"), (9, "hostuser")],
    localListenerConnected := true,
    remoteListenerConnected := true,
    execListenerConnected := true,
    closeHandlerInstalled := true,
    saveHandlerConnected := true,
    wsDestroyed := false }

/-- The same replica with the hosting flag set. -/
def sampleHost : RTCState := { sampleState with hosting := true }

/-- A replica alone in the presence set (its host pointer is stale). -/
def sampleAlone : RTCState := { sampleState with awareness := [(3, "me")] }

/-! ## Association-list lemmas -/

theorem alookup_aset_self {κ α : Type} [DecidableEq κ]
    (l : List (κ × α)) (k : κ) (v : α) : alookup (aset l k v) k = some v := by
  induction l with
  | nil => simp [aset, alookup]
  | cons p rest ih =>
    by_cases h : p.1 = k <;> simp [aset, alookup, h, ih]

theorem alookup_aset_ne {κ α : Type} [DecidableEq κ]
    (l : List (κ × α)) (k k' : κ) (v : α) (h : k' ≠ k) :
    alookup (aset l k v) k' = alookup l k' := by
  induction l with
  | nil => simp [aset, alookup, Ne.symm h]
  | cons p rest ih =>
    obtain ⟨pk, pv⟩ := p
    by_cases h1 : pk = k
    · subst h1
      simp [aset, alookup, Ne.symm h]
    · simp only [aset, if_neg h1]
      by_cases h2 : pk = k' <;> simp [alookup, h2, ih]

theorem aset_eq_self {κ α : Type} [DecidableEq κ]
    (l : List (κ × α)) (k : κ) (v : α) (h : alookup l k = some v) :
    aset l k v = l := by
  induction l with
  | nil => simp [alookup] at h
  | cons p rest ih =>
    obtain ⟨pk, pv⟩ := p
    by_cases h1 : pk = k
    · simp only [alookup, if_pos h1] at h
      cases h
      simp [aset, if_pos h1]
    · simp only [alookup, if_neg h1] at h
      simp [aset, if_neg h1, ih h]

theorem alookup_mem {κ α : Type} [DecidableEq κ]
    {l : List (κ × α)} {k : κ} {v : α} (h : alookup l k = some v) :
    (k, v) ∈ l := by
  induction l with
  | nil => simp [alookup] at h
  | cons p rest ih =>
    by_cases h1 : p.1 = k
    · simp only [alookup, if_pos h1] at h
      cases h
      simp [← h1]
    · simp only [alookup, if_neg h1] at h
      exact List.mem_cons_of_mem _ (ih h)

theorem alookup_fst_mem {κ α : Type} [DecidableEq κ]
    {l : List (κ × α)} {k : κ} (h : k ∈ l.map Prod.fst) :
    ∃ v, alookup l k = some v := by
  induction l with
  | nil => simp at h
  | cons p rest ih =>
    by_cases h1 : p.1 = k
    · exact ⟨p.2, by simp [alookup, h1]⟩
    · simp only [List.map_cons, List.mem_cons] at h
      rcases h with h | h

      · exact absurd h.symm h1
      · obtain ⟨v, hv⟩ := ih h
        exact ⟨v, by simp [alookup, h1, hv]⟩

/-- A record whose `position` is already `i` is unchanged by writing `i`. -/
theorem blockRecord_set_position_self (v : BlockRecord) (i : Nat)
    (h : v.position = i) : { v with position := i } = v := by
  cases v
  cases h
  rfl

/-! ## Claim C2 -/

/-- Claim C2: when a hosting replica observes a remote change to a block
record's `xCount` field, it compares the new replicated value against the
locally cached execution count (`cell.model.metadata.get('xCount')`); if
the value is unchanged it does not invoke the execution backend
(`executed = false`), and it delegates the block to the kernel
(`executed = true`, the `CodeCell.execute` call) exactly when the value
differs. -/
theorem host_xcount_duplicate_gate (s : RTCState) (id : String)
    (v : Option Nat) (rest : List KeyChange) (r : BlockRecord)
    (cell : LocalCell) (hh : s.hosting = true)
    (hr : alookup s.cells id = some r)
    (hc : s.nbCells.get? r.position = some cell) :
    (cell.xCountMeta = r.xCount →
      remoteListenerEvent s (.property id (⟨.xCount, v⟩ :: rest)) =
        some (s, noEffects)) ∧
    (cell.xCountMeta ≠ r.xCount →
      remoteListenerEvent s (.property id (⟨.xCount, v⟩ :: rest)) =
        some (s, ⟨true, false⟩)) := by
  rw [List.get?_eq_getElem?] at hc
  constructor <;> intro hx <;>
    simp [remoteListenerEvent, handleExecution, hh, hr, hc, hx, noEffects]

/-- Witness for C2: on the hosting sample replica, block `b`'s replicated
`xCount` (1) differs from the local cache (0), so the handler executes. -/
theorem host_xcount_duplicate_gate_app :
    remoteListenerEvent sampleHost
      (.property "b" [⟨.xCount, some 0⟩]) = some (sampleHost, ⟨true, false⟩) :=
  (host_xcount_duplicate_gate sampleHost "b" (some 0) []
      (sampleRecord .code 1 (some 1))
      { rtcId := some "b", xCountMeta := some 0, ctype := .code,
        outputs := [] }
      rfl (by decide) (by decide)).2 (by decide)

/-! ## Claim C9 -/

/-- Claim C9: for every property-change event on one block record, the
dispatcher reads only the first changed key
(`changes.keys.keys().next().value`) and invokes only that key's handler,
whatever the remaining changed keys of the event are.  With `position`
first, the whole event goes to the move handler; with `type`, `xCount`,
`output` or `tag` first, the result is that key's handler alone, which
does not depend on the remaining changed keys at all — their handlers
are never invoked. -/
theorem remote_dispatch_first_key_only (s : RTCState) (id : String)
    (kc : KeyChange) (rest : List KeyChange) :
    (kc.key = .position →
      remoteListenerEvent s (.property id (kc :: rest)) =
        (handleMoveUpdate s id (kc :: rest)).map (fun s' => (s', noEffects))) ∧
    (kc.key = .type →
      remoteListenerEvent s (.property id (kc :: rest)) =
        (switchType s id).map (fun s' => (s', noEffects))) ∧
    (kc.key = .xCount →
      remoteListenerEvent s (.property id (kc :: rest)) =
        (if s.hosting then (handleExecution s id).map (fun ex => (s, ⟨ex, false⟩)) else some (s, noEffects))) ∧
    (kc.key = .output →
      remoteListenerEvent s (.property id (kc :: rest)) =
        (if !s.hosting then (handleOutputChange s id).map (fun s' => (s', noEffects)) else some (s, noEffects))) ∧
    (kc.key = .tag →
      remoteListenerEvent s (.property id (kc :: rest)) =
        (handleTag s id).map (fun s' => (s', noEffects))) := by
  obtain ⟨k, ov⟩ := kc
  refine ⟨?_, ?_, ?_, ?_, ?_⟩ <;> intro hk <;> cases hk <;> rfl

/-- Witness for C9: an event changing both `type` and `position` of block
`c` is dispatched to `switchType` alone (the position change carried by
the same event is dropped); on the hosting replica, an event changing
`xCount`, `type` and `position` of block `b` is dispatched to the
execution handler alone; and an event changing `tag` and `output` of
block `a` is dispatched to the tag handler alone. -/
theorem remote_dispatch_first_key_only_app :
    remoteListenerEvent sampleState
        (.property "c" [⟨.type, none⟩, ⟨.position, some 0⟩]) =
      (switchType sampleState "c").map (fun s' => (s', noEffects)) ∧
    remoteListenerEvent sampleHost
        (.property "b" [⟨.xCount, some 0⟩, ⟨.type, none⟩, ⟨.position, some 1⟩]) =
      (if sampleHost.hosting then (handleExecution sampleHost "b").map (fun ex => (sampleHost, ⟨ex, false⟩)) else some (sampleHost, noEffects)) ∧
    remoteListenerEvent sampleState
        (.property "a" [⟨.tag, none⟩, ⟨.output, none⟩]) =
      (handleTag sampleState "a").map (fun s' => (s', noEffects)) :=
  ⟨(remote_dispatch_first_key_only sampleState "c" ⟨.type, none⟩
      [⟨.position, some 0⟩]).2.1 rfl,
   (remote_dispatch_first_key_only sampleHost "b" ⟨.xCount, some 0⟩
      [⟨.type, none⟩, ⟨.position, some 1⟩]).2.2.1 rfl,
   (remote_dispatch_first_key_only sampleState "a" ⟨.tag, none⟩
      [⟨.output, none⟩]).2.2.2.2 rfl⟩

/-! ## Claim C4 -/

/-- Claim C4: a replica whose hosting flag is false never invokes the
execution backend.  In the remote dispatcher, the kernel-execution
handler for an `xCount` change runs only when `hosting` is true (a
non-host gets the identity result with no effects); and a non-host's
user-triggered execution request, when the declared host is present in
the awareness set, only increments the block record's `xCount` — no
`CodeCell.execute`, no kernel change, no change to the hosting flag or
the host pointer. -/
theorem nonhost_never_executes (s : RTCState) (hh : s.hosting = false) :
    (∀ (id : String) (v : Option Nat) (rest : List KeyChange),
      remoteListenerEvent s (.property id (⟨.xCount, v⟩ :: rest)) =
        some (s, noEffects)) ∧
    (∀ (args : ExecArgs) (cid : String) (r : BlockRecord),
      args.sameNotebook = true → args.cellType = .code →
      args.cellId = some cid → alookup s.cells cid = some r →
      checkHostActive s = true →
      localExecutionListener s args =
        some ({ s with cells := aset s.cells cid { r with xCount := some (bumpCount r.xCount) } }, noEffects)) := by
  constructor
  · intro id v rest
    simp [remoteListenerEvent, hh]
  · intro args cid r h1 h2 h3 h4 h5
    obtain ⟨sn, ci, ct⟩ := args
    cases h1
    cases h2
    cases h3
    simp [localExecutionListener, bumpCount, h4, h5, noEffects]

/-- Witness for C4: on the non-host sample replica with the host present,
a remote `xCount` event is a no-op and a local execution request only
bumps block `b`'s record. -/
theorem nonhost_never_executes_app :
    remoteListenerEvent sampleState
        (.property "b" [⟨.xCount, some 0⟩]) = some (sampleState, noEffects) ∧
    localExecutionListener sampleState
        { sameNotebook := true, cellId := some "b", cellType := .code } =
      some ({ sampleState with cells := aset sampleState.cells "b" (sampleRecord .code 1 (some 2)) }, noEffects) :=
  ⟨(nonhost_never_executes sampleState rfl).1 "b" (some 0) [],
   (nonhost_never_executes sampleState rfl).2
     { sameNotebook := true, cellId := some "b", cellType := .code }
     "b" (sampleRecord .code 1 (some 1)) rfl rfl rfl (by decide) (by decide)⟩

/-! ## Claim C5 -/

/-- The liveness scan of `checkHostActive` succeeds exactly when some
present member's user name equals the host pointer. -/
theorem checkHostActive_eq_true (s : RTCState) :
    checkHostActive s = true ↔ ∃ p ∈ s.awareness, p.2 = s.notebookHost := by
  unfold checkHostActive
  suffices h : ∀ (l : List (Nat × String)) (acc : Bool),
      (l.foldl (fun isActive st =>
        if st.2 = s.notebookHost then true else isActive) acc) = true ↔
      (acc = true ∨ ∃ p ∈ l, p.2 = s.notebookHost) by
    simpa using h s.awareness false
  intro l
  induction l with
  | nil => simp
  | cons q rest ih =>
    intro acc
    rw [List.foldl_cons, ih]
    by_cases hq : q.2 = s.notebookHost
    · simp [hq]
    · simp only [if_neg hq, List.mem_cons]
      constructor
      · rintro (ha | ⟨p, hp, hph⟩)
        · exact Or.inl ha
        · exact Or.inr ⟨p, Or.inr hp, hph⟩
      · rintro (ha | ⟨p, rfl | hp, hph⟩)
        · exact Or.inl ha
        · exact absurd hph hq
        · exact Or.inr ⟨p, hp, hph⟩

/-- Claim C5: a user-triggered execution of a code block on a non-host
replica checks the presence set for a member whose username equals the
current host pointer (`checkHostActive`, characterised by
`checkHostActive_eq_true`).  If no such member is present the replica
sets its hosting flag, rewrites the host pointer to its own username and
establishes the execution backend (`kernelChanged = true`, the
`becomeHost` kernel switch) — and then still publishes the bumped
`xCount`; otherwise it only increments the block record's `xCount` and
does not promote itself. -/
theorem exec_request_host_election (s : RTCState) (args : ExecArgs)
    (cid : String) (r : BlockRecord) (_hns : s.hosting = false)
    (h1 : args.sameNotebook = true) (h2 : args.cellType = .code)
    (h3 : args.cellId = some cid) (h4 : alookup s.cells cid = some r) :
    ((¬ ∃ p ∈ s.awareness, p.2 = s.notebookHost) →
      localExecutionListener s args = some ({ s with hosting := true, notebookHost := s.username, cells := aset s.cells cid { r with xCount := some (bumpCount r.xCount) } }, ⟨false, true⟩)) ∧
    ((∃ p ∈ s.awareness, p.2 = s.notebookHost) →
      localExecutionListener s args = some ({ s with cells := aset s.cells cid { r with xCount := some (bumpCount r.xCount) } }, ⟨false, false⟩)) := by
  obtain ⟨sn, ci, ct⟩ := args
  cases h1
  cases h2
  cases h3
  constructor <;> intro hp
  · have hact : checkHostActive s = false := by
      rw [← Bool.not_eq_true, checkHostActive_eq_true]
      exact hp
    simp [localExecutionListener, bumpCount, h4, hact]
  · have hact : checkHostActive s = true := (checkHostActive_eq_true s).mpr hp
    simp [localExecutionListener, bumpCount, h4, hact]

/-- Witness for C5: a replica alone in the presence set (its host pointer
names an absent peer) promotes itself and bumps block `b`'s count. -/
theorem exec_request_host_election_app :
    localExecutionListener sampleAlone
      { sameNotebook := true, cellId := some "b", cellType := .code } =
      some ({ sampleAlone with hosting := true, notebookHost := sampleAlone.username, cells := aset sampleAlone.cells "b" { sampleRecord .code 1 (some 1) with xCount := some (bumpCount (sampleRecord .code 1 (some 1)).xCount) } }, ⟨false, true⟩) :=
  (exec_request_host_election sampleAlone
    { sameNotebook := true, cellId := some "b", cellType := .code }
    "b" (sampleRecord .code 1 (some 1)) rfl rfl rfl rfl (by decide)).1
    (by decide)

/-! ## Claim C10 -/

/-- Claim C10: in the non-host local execution listener, an undefined
record `xCount` is set to 1 and a defined one to its predecessor plus
one (`bumpCount`); after every user-triggered execution of a code block
the record's `xCount` is therefore a defined number that is at least 1. -/
theorem exec_listener_bumps_xcount (s : RTCState) (args : ExecArgs)
    (cid : String) (metadata : BlockRecord) (_hns : s.hosting = false)
    (h1 : args.sameNotebook = true) (h2 : args.cellType = .code)
    (h3 : args.cellId = some cid)
    (h4 : alookup s.cells cid = some metadata) :
    ∃ s' eff, localExecutionListener s args = some (s', eff) ∧
      alookup s'.cells cid = some { metadata with xCount := some (bumpCount metadata.xCount) } ∧
      1 ≤ bumpCount metadata.xCount := by
  obtain ⟨sn, ci, ct⟩ := args
  cases h1
  cases h2
  cases h3
  have hbump : 1 ≤ bumpCount metadata.xCount := by
    cases hx : metadata.xCount <;> simp [bumpCount]
  cases hact : checkHostActive s with
  | false =>
    refine ⟨{ s with hosting := true, notebookHost := s.username, cells := aset s.cells cid { metadata with xCount := some (bumpCount metadata.xCount) } }, ⟨false, true⟩, ?_, ?_, hbump⟩
    · simp [localExecutionListener, bumpCount, h4, hact]
    · exact alookup_aset_self _ _ _
  | true =>
    refine ⟨{ s with cells := aset s.cells cid { metadata with xCount := some (bumpCount metadata.xCount) } }, ⟨false, false⟩, ?_, ?_, hbump⟩
    · simp [localExecutionListener, bumpCount, h4, hact]
    · exact alookup_aset_self _ _ _

/-- Witness for C10: executing block `c`, whose record has no `xCount`
yet, leaves it defined with value 1. -/
theorem exec_listener_bumps_xcount_app :
    ∃ s' eff, localExecutionListener sampleState
        { sameNotebook := true, cellId := some "c", cellType := .code } =
        some (s', eff) ∧
      alookup s'.cells "c" = some { sampleRecord .markdown 2 none with xCount := some (bumpCount (sampleRecord .markdown 2 none).xCount) } ∧
      1 ≤ bumpCount (sampleRecord .markdown 2 none).xCount :=
  exec_listener_bumps_xcount sampleState
    { sameNotebook := true, cellId := some "c", cellType := .code }
    "c" (sampleRecord .markdown 2 none) rfl rfl rfl rfl (by decide)

/-! ## Claim C1 -/

/-- Claim C1: a local cell-list event that is the replay of a remote
change — an Add whose cell model already carries an `rtc-id`, a Remove
whose `rtc-id` has no entry in the bindings map, or a Move whose indices
are equal or whose block record's `position` already equals the new
index — leaves the listener's entire state, in particular the replicated
block map `cells`, exactly unchanged. -/
theorem local_echo_no_mutation (s : RTCState) (freshId : String)
    (changed : ChangedArgs) (h : isLocalEcho s changed) :
    localListener s freshId changed = some s := by
  cases changed with
  | add newIndex =>
    obtain ⟨c, hc, hid⟩ := h
    rw [List.get?_eq_getElem?] at hc
    simp [localListener, hc, hid]
  | remove oldIndex oldValue =>
    cases hrtc : oldValue.rtcId with
    | none => simp [localListener, hrtc]
    | some id => simp [localListener, hrtc, h id hrtc]
  | set oldValue newValue => exact absurd h not_false
  | move oldIndex newIndex oldValue =>
    rcases h with rfl | ⟨id, r, hid, hr, hpos⟩
    · simp [localListener]
    · by_cases heq : oldIndex = newIndex
      · simp [localListener, heq]
      · simp [localListener, heq, hid, hr, hpos]

/-- Witness for C1: adding a cell that already carries `rtc-id` `b` (a
replayed remote add) mutates nothing. -/
theorem local_echo_no_mutation_app :
    localListener sampleState "fresh-id" (.add 1) = some sampleState :=
  local_echo_no_mutation sampleState "fresh-id" (.add 1)
    ⟨{ rtcId := some "b", xCountMeta := some 0, ctype := .code,
       outputs := [] }, by decide, by decide⟩

/-! ## Claim C3 (corrected) -/

/-- Counterexample to claim C3: the claim says a remote deletion naming a
block-id with no matching local binding is "skipped without faulting" and
"the handler completes normally".  On `sampleState`, which has no binding
for `ghost`, the dispatcher instead evaluates
`this.bindings.get('ghost').destroy()` and throws a `TypeError`
(result `none`), so the handler does not complete normally. -/
theorem remote_delete_unbound_cex :
    remoteListenerEvent sampleState (.topLevel [("ghost", .delete)]) =
      none := by decide

/-- Amended claim C3: for every remote deletion event naming a block-id
with no matching local binding, the handler faults (a `TypeError` on the
missing binding's `destroy`, modelled by `none`) before performing any
mutation, instead of completing normally. -/
theorem remote_delete_unbound_faults (s : RTCState) (id : String)
    (h : alookup s.bindings id = none) :
    remoteListenerEvent s (.topLevel [(id, .delete)]) = none := by
  simp [remoteListenerEvent, remoteDelete, h]

/-- Witness for the amended C3: the replica that is alone (same binding
table) faults on a deletion of the unbound id `zz`. -/
theorem remote_delete_unbound_faults_app :
    remoteListenerEvent sampleAlone (.topLevel [("zz", .delete)]) = none :=
  remote_delete_unbound_faults sampleAlone "zz" (by decide)

/-! ## Claim C6 -/

/-- For a present element, JS `splice(indexOf(x), 1)` removes exactly the
first occurrence of `x`, and the index is non-negative. -/
theorem jsSplice_indexOf_erase (l : List Nat) (x : Nat) (h : x ∈ l) :
    jsSpliceOne l (jsIndexOf l x) = l.erase x ∧ 0 ≤ jsIndexOf l x := by
  induction l with
  | nil => simp at h
  | cons y rest ih =>
    by_cases hy : y = x
    · subst hy
      refine ⟨?_, by simp [jsIndexOf]⟩
      simp [jsIndexOf, jsSpliceOne, List.erase_cons_head]
    · have hmem : x ∈ rest := by
        rcases List.mem_cons.mp h with rfl | h2
        · exact absurd rfl hy
        · exact h2
      obtain ⟨ihs, ihn⟩ := ih hmem
      have hidx : jsIndexOf (y :: rest) x = jsIndexOf rest x + 1 := by
        rw [jsIndexOf, if_neg hy, if_neg (by omega)]
      constructor
      · rw [hidx]
        have hstep : jsSpliceOne (y :: rest) (jsIndexOf rest x + 1) =
            y :: jsSpliceOne rest (jsIndexOf rest x) := by
          unfold jsSpliceOne
          rw [if_neg (by omega), if_neg (by omega)]
          have h1 : (jsIndexOf rest x + 1).toNat = (jsIndexOf rest x).toNat + 1 := by
            omega
          rw [h1, List.eraseIdx_cons_succ]
        rw [hstep, ihs, List.erase_cons_tail (by simp [hy])]
      · omega

/-- Claim C6: host handoff at close.  With other replicas present (the
presence set has more than one member, the departing replica included and
client ids unique as in an awareness map), the host pointer afterwards
carries the user name of the presence entry drawn at the random index
`pick` — always one of the *other* present replicas, never the departing
replica's own identity (assuming the peers' user names differ from its
own).  With no other replica present the pointer is left entirely
unchanged.  `pick` models `Math.floor(Math.random() * length)`, which is
uniformly distributed over the other replicas; the theorem holds for
every such index. -/
theorem host_handoff_picks_present_peer (s : RTCState) (pick : Nat)
    (hnd : (s.awareness.map Prod.fst).Nodup)
    (hmem : s.clientID ∈ s.awareness.map Prod.fst)
    (hothers : ∀ p ∈ s.awareness, p.1 ≠ s.clientID → p.2 ≠ s.username) :
    (s.awareness.length ≤ 1 → handleHostChange s pick = some s) ∧
    (pick < s.awareness.length - 1 →
      ∃ c name, handleHostChange s pick = some { s with notebookHost := name } ∧ (c, name) ∈ s.awareness ∧ c ≠ s.clientID ∧ name ≠ s.username) := by
  constructor
  · intro hlen
    have hngt : ¬ (s.awareness.map Prod.fst).length > 1 := by
      rw [List.length_map]
      omega
    simp [handleHostChange, hngt]
    intro hcon
    omega
  · intro hpick
    have hlenm : (s.awareness.map Prod.fst).length = s.awareness.length :=
      List.length_map _ _
    have hgt : (s.awareness.map Prod.fst).length > 1 := by omega
    obtain ⟨hsplice, -⟩ :=
      jsSplice_indexOf_erase (s.awareness.map Prod.fst) s.clientID hmem
    have hpick2 :
        pick < ((s.awareness.map Prod.fst).erase s.clientID).length := by
      rw [List.length_erase_of_mem hmem]
      omega
    have hget := List.get?_eq_get hpick2
    have hrh_mem :
        ((s.awareness.map Prod.fst).erase s.clientID).get ⟨pick, hpick2⟩ ∈
          (s.awareness.map Prod.fst).erase s.clientID := List.get_mem _ _ _
    obtain ⟨hne, hmem2⟩ := (List.Nodup.mem_erase_iff hnd).mp hrh_mem
    obtain ⟨name, hname⟩ := alookup_fst_mem hmem2
    have hpair := alookup_mem hname
    refine ⟨_, name, ?_, hpair, hne, hothers _ hpair hne⟩
    simp only [handleHostChange, if_pos hgt, hsplice, hget, hname]

/-- Witness for C6: the departing host `me` (client 3) hands off to the
only other present replica, `hostuser` (client 9); with `pick = 0` the
pointer ends up naming `hostuser`. -/
theorem host_handoff_picks_present_peer_app :
    ∃ c name,
      handleHostChange sampleState 0 =
        some { sampleState with notebookHost := name } ∧
      (c, name) ∈ sampleState.awareness ∧ c ≠ sampleState.clientID ∧
      name ≠ sampleState.username :=
  (host_handoff_picks_present_peer sampleState 0 (by decide) (by decide)
    (by decide)).2 (by decide)

/-! ## Claim C7 (code bug) -/

/-- Claim C7 evaluated at a failing input: `close()` on the sample
session, which holds three live bindings.  The binding map is cleared,
all five subscriptions are disconnected and the websocket provider is
destroyed — but, because the forEach body is the bare property reference
`binding.destroy` and never calls it, every binding object survives with
`destroyed = false`, contradicting the claim (and `close`'s own doc
comment "Destroys all bindings."). -/
theorem close_leaves_bindings_live :
    (close sampleState).2 = [⟨false⟩, ⟨false⟩, ⟨false⟩] ∧
    ((close sampleState).2.all fun b => b.destroyed = false) ∧
    (close sampleState).1.bindings = [] ∧
    (close sampleState).1.localListenerConnected = false ∧
    (close sampleState).1.remoteListenerConnected = false ∧
    (close sampleState).1.execListenerConnected = false ∧
    (close sampleState).1.closeHandlerInstalled = false ∧
    (close sampleState).1.saveHandlerConnected = false ∧
    (close sampleState).1.wsDestroyed = true := by
  decide

/-! ## Claim C8 -/

/-- Inversion of one successful `adjustIndexes` loop iteration. -/
theorem adjustStep_eq_some (nb : List LocalCell) (cm cm1 : CellsMap)
    (i : Nat) (h : adjustStep nb cm i = some cm1) :
    ∃ id r, cellIdAt nb i = some id ∧ alookup cm id = some r ∧
      cm1 = aset cm id { r with position := i } := by
  unfold adjustStep at h
  cases hid : cellIdAt nb i with
  | none => simp [hid] at h
  | some id =>
    cases hr : alookup cm id with
    | none => simp [hid, hr] at h
    | some r =>
      simp only [hid, hr, Option.some.injEq] at h
      exact ⟨id, r, rfl, hr, h.symm⟩

/-- A successful `adjustIndexes` run finds a block-id at every visited
local index. -/
theorem adjustRun_success (nb : List LocalCell) (L : List Nat) :
    ∀ (cm m : CellsMap), L.foldlM (adjustStep nb) cm = some m →
      ∀ i ∈ L, ∃ id, cellIdAt nb i = some id := by
  induction L with
  | nil =>
    intro cm m _ i hi
    simp at hi
  | cons j L ih =>
    intro cm m h i hi
    rw [List.foldlM_cons] at h
    obtain ⟨cm1, hstep, hrest⟩ := Option.bind_eq_some.mp h
    rcases List.mem_cons.mp hi with rfl | hi2
    · obtain ⟨id, r, hid, -, -⟩ := adjustStep_eq_some nb cm cm1 i hstep
      exact ⟨id, hid⟩
    · exact ih cm1 m hrest i hi2

/-- An `adjustIndexes` run leaves every block-id it never visits
untouched. -/
theorem adjustRun_untouched (nb : List LocalCell) (L : List Nat) :
    ∀ (cm m : CellsMap), L.foldlM (adjustStep nb) cm = some m →
      ∀ k, (∀ i ∈ L, cellIdAt nb i ≠ some k) →
      alookup m k = alookup cm k := by
  induction L with
  | nil =>
    intro cm m h k _
    simp only [List.foldlM_nil] at h
    cases h
    rfl
  | cons j L ih =>
    intro cm m h k hk
    rw [List.foldlM_cons] at h
    obtain ⟨cm1, hstep, hrest⟩ := Option.bind_eq_some.mp h
    obtain ⟨id, r, hid, hr, rfl⟩ := adjustStep_eq_some nb cm cm1 j hstep
    have hni : k ≠ id := by
      intro hidk
      exact hk j (List.mem_cons_self _ _) (by rw [hid, hidk])
    rw [ih _ m hrest k (fun i hi => hk i (List.mem_cons_of_mem _ hi)),
        alookup_aset_ne _ _ _ _ hni]

/-- When the block-ids along the visited span are pairwise distinct, a
successful run overwrites each visited block's `position` with its local
index and changes nothing else about its record. -/
theorem adjustRun_writes (nb : List LocalCell) (L : List Nat) :
    ∀ (cm m : CellsMap), (L.filterMap (cellIdAt nb)).Nodup →
      L.foldlM (adjustStep nb) cm = some m →
      ∀ i ∈ L, ∀ id, cellIdAt nb i = some id →
        ∃ r, alookup cm id = some r ∧
          alookup m id = some { r with position := i } := by
  induction L with
  | nil =>
    intro cm m _ _ i hi
    simp at hi
  | cons j L ih =>
    intro cm m hnd h i hi id hidi
    rw [List.foldlM_cons] at h
    obtain ⟨cm1, hstep, hrest⟩ := Option.bind_eq_some.mp h
    obtain ⟨id0, r0, hid0, hr0, rfl⟩ := adjustStep_eq_some nb cm cm1 j hstep
    simp only [List.filterMap_cons, hid0, List.nodup_cons] at hnd
    obtain ⟨hnotin, hndL⟩ := hnd
    have hnotinL : ∀ i' ∈ L, cellIdAt nb i' ≠ some id0 := by
      intro i' hi' hcontra
      exact hnotin (List.mem_filterMap.mpr ⟨i', hi', hcontra⟩)
    rcases List.mem_cons.mp hi with rfl | hi2
    · rw [hid0] at hidi
      obtain rfl := Option.some.inj hidi
      refine ⟨r0, hr0, ?_⟩
      rw [adjustRun_untouched nb L _ m hrest id0 hnotinL, alookup_aset_self]
    · have hne : id ≠ id0 := by
        intro hcontra
        exact hnotinL i hi2 (by rw [hidi, hcontra])
      obtain ⟨r, hr, hm⟩ := ih _ m hndL hrest i hi2 id hidi
      rw [alookup_aset_ne _ _ _ _ hne] at hr
      exact ⟨r, hr, hm⟩

/-- A map whose visited records already carry their local indices is a
fixed point of the `adjustIndexes` loop. -/
theorem adjustRun_fix (nb : List LocalCell) (L : List Nat) :
    ∀ (m : CellsMap),
      (∀ i ∈ L, ∃ id v, cellIdAt nb i = some id ∧
        alookup m id = some v ∧ v.position = i) →
      L.foldlM (adjustStep nb) m = some m := by
  induction L with
  | nil =>
    intro m _
    simp [List.foldlM_nil]
  | cons j L ih =>
    intro m hm
    obtain ⟨id, v, hid, hv, hpos⟩ := hm j (List.mem_cons_self _ _)
    rw [List.foldlM_cons]
    have hstep : adjustStep nb m j = some m := by
      simp only [adjustStep, hid, hv, blockRecord_set_position_self v j hpos,
        aset_eq_self _ _ _ hv]
    rw [hstep]
    exact ih m (fun i hi => hm i (List.mem_cons_of_mem _ hi))

/-- Claim C8: for every local cell list, every replicated block map and
every pair of bounds in either order, a successful `adjustIndexes` run
overwrites each spanned block record's `position` with the block's local
index, and a second run with the same bounds succeeds and returns exactly
the same map.  (The block-ids along the span are assumed pairwise
distinct, the data-model invariant for minted block-ids.) -/
theorem adjust_reindex_idempotent (nb : List LocalCell) (cm m : CellsMap)
    (a b : Nat)
    (hnd : ((spanIndexes a b).filterMap (cellIdAt nb)).Nodup)
    (h : adjustIndexes nb cm a b = some m) :
    adjustIndexes nb m a b = some m ∧
    (∀ i, min a b ≤ i → i ≤ max a b → ∀ id, cellIdAt nb i = some id →
      ∃ r, alookup cm id = some r ∧
        alookup m id = some { r with position := i }) := by
  have hmem_span : ∀ i, i ∈ spanIndexes a b ↔ (min a b ≤ i ∧ i ≤ max a b) := by
    intro i
    unfold spanIndexes
    by_cases hab : a ≤ b
    · simp only [if_pos hab, List.mem_range'_1]
      omega
    · simp only [if_neg hab, List.mem_range'_1]
      omega
  unfold adjustIndexes at h ⊢
  constructor
  · apply adjustRun_fix
    intro i hi
    obtain ⟨id, hid⟩ := adjustRun_success nb _ cm m h i hi
    obtain ⟨r, -, hm2⟩ := adjustRun_writes nb _ cm m hnd h i hi id hid
    exact ⟨id, { r with position := i }, hid, hm2, rfl⟩
  · intro i h1 h2 id hid
    exact adjustRun_writes nb _ cm m hnd h i
      ((hmem_span i).mpr ⟨h1, h2⟩) id hid

/-- Witness for C8: reindexing the sample notebook over the bounds
`(2, 0)` (given in reversed order) rewrites the stale positions `5, 7, 0`
of blocks `a`, `b`, `c` to `0, 1, 2`; running it again returns the very
same map, and block `b`'s record was overwritten with its local index 1. -/
theorem adjust_reindex_idempotent_app :
    adjustIndexes sampleNb sampleCells 2 0 = some sampleCells ∧
    ∃ r, alookup staleCells "b" = some r ∧
      alookup sampleCells "b" = some { r with position := 1 } :=
  ⟨(adjust_reindex_idempotent sampleNb staleCells sampleCells 2 0
      (by decide) (by decide)).1,
   (adjust_reindex_idempotent sampleNb staleCells sampleCells 2 0
      (by decide) (by decide)).2 1 (by decide) (by decide) "b" (by decide)⟩

end RTCYjs
